import Mathlib

/-!
Verification development for the Liquide review-agent core
(`liquide/services/embedding_service.py`, `liquide/services/qdrant_service.py`,
`liquide/services/search_review_service.py`).

The Python code is shallowly embedded: dynamically-typed Python values become
the inductive `PyVal`; fallible Python code returns `Except PyErr`; the MD5
digest (a library capability) is an abstract parameter `md5bits`; `datetime`
objects become `PyDateTime` (wall-clock seconds plus an optional UTC offset;
offset-naive timestamps are interpreted under a UTC process timezone, matching
the UTC-only data in this repository); the Qdrant index (an external
capability) is a key/value store keyed by the numeric point id, with upsert =
insert-or-overwrite semantics as documented by the index engine.
-/

namespace LiquideSpec

/-- Python exception classes that the embedded code can raise. -/
inductive PyErr where
  | valueError (msg : String)
  | typeError (msg : String)
  | attributeError (msg : String)
  | indexError (msg : String)
deriving DecidableEq, Repr

/-- Model of a dynamically-typed Python value (the subset the services touch). -/
inductive PyVal where
  | vnone
  | vstr (s : String)
  | vint (n : Int)
  | vfloat (q : Rat)
  | vlist (xs : List PyVal)
  | vdict (entries : List (String × PyVal))

namespace PyVal

/-- Python truthiness. -/
def truthy : PyVal → Bool
  | vnone => false
  | vstr s => s ≠ ""
  | vint n => n ≠ 0
  | vfloat q => q ≠ 0
  | vlist xs => !xs.isEmpty
  | vdict es => !es.isEmpty

def isList : PyVal → Bool
  | vlist _ => true
  | _ => false

def isDict : PyVal → Bool
  | vdict _ => true
  | _ => false

def isStr : PyVal → Bool
  | vstr _ => true
  | _ => false

end PyVal

/-- Lookup in a Python dict (first binding wins, as dict keys are unique). -/
def dictLookup (es : List (String × PyVal)) (k : String) : Option PyVal :=
  match es with
  | [] => none
  | (k', v) :: rest => if k' = k then some v else dictLookup rest k

/-- `d.get(k)` on a dict value: `None` when the key is absent. -/
def dictGet (v : PyVal) (k : String) : PyVal :=
  match v with
  | .vdict es => (dictLookup es k).getD .vnone
  | _ => .vnone

/-- `d.get(k, default)`. -/
def dictGetD (es : List (String × PyVal)) (k : String) (dflt : PyVal) : PyVal :=
  (dictLookup es k).getD dflt

/-- `d[k] = v`: replace an existing binding, else append (Python insertion order). -/
def dictSet (es : List (String × PyVal)) (k : String) (v : PyVal) :
    List (String × PyVal) :=
  match es with
  | [] => [(k, v)]
  | (k', v') :: rest =>
      if k' = k then (k, v) :: rest else (k', v') :: dictSet rest k v

/-- Python `a or b`. -/
def pyOr (a b : PyVal) : PyVal := if a.truthy then a else b

/-- Python `str(x)` (float rendering is approximated; no claim depends on it). -/
def pyStrOf : PyVal → String
  | .vnone => "None"
  | .vstr s => s
  | .vint n => toString n
  | .vfloat q => toString q
  | .vlist _ => "[...]"
  | .vdict _ => "{...}"

/-- Characters stripped by Python `str.strip()` (ASCII whitespace). -/
def isPySpace (c : Char) : Bool :=
  c = ' ' ∨ c = '\t' ∨ c = '\n' ∨ c = '\x0d' ∨ c = '\x0b' ∨ c = '\x0c'

/-- `str.strip()` on a character list. -/
def stripChars (cs : List Char) : List Char :=
  ((cs.dropWhile isPySpace).reverse.dropWhile isPySpace).reverse

/-- `str.strip()`. -/
def pyStrip (s : String) : String := (stripChars s.data).asString

/-- `str.lower()` (ASCII case folding; the repository folds ASCII tags only). -/
def toLowerStr (s : String) : String := (s.data.map Char.toLower).asString

/-- Digit parsing helper. -/
def digitVal (c : Char) : Option Nat :=
  if c.isDigit then some (c.toNat - 48) else none

/-- Parse a nonempty run of decimal digits into its value and length. -/
def digitsVal : List Char → Option (Nat × Nat)
  | [] => none
  | [c] => (digitVal c).map (fun d => (d, 1))
  | c :: rest => do
      let d ← digitVal c
      let (v, n) ← digitsVal rest
      pure (d * 10 ^ n + v, n + 1)

/-- Split a char list at the first `'.'` (for Python `float()` strings). -/
def splitAtDot : List Char → (List Char × Option (List Char))
  | [] => ([], none)
  | '.' :: rest => ([], some rest)
  | c :: rest =>
      let (a, b) := splitAtDot rest
      (c :: a, b)

/-- The numeric-literal core of Python `float(str)`: optional sign, digits with
at most one dot, at least one digit overall.  (Exponent/`inf`/`nan` forms are
outside the modelled subset; the repository never feeds them.) -/
def parseFloatCore (cs : List Char) : Option Rat :=
  let (sign, body) :=
    match cs with
    | '-' :: rest => ((-1 : Int), rest)
    | '+' :: rest => ((1 : Int), rest)
    | _ => ((1 : Int), cs)
  let (ip, fp?) := splitAtDot body
  match fp? with
  | none => do
      let (v, _) ← digitsVal ip
      pure (mkRat (sign * (v : Int)) 1)
  | some fp =>
      if ip = [] ∧ fp = [] then none
      else do
        let iv ← if ip = [] then pure (0, 0) else digitsVal ip
        let fv ← if fp = [] then pure (0, 0) else digitsVal fp
        if fp ≠ [] ∧ (fv.2 : Nat) ≠ fp.length then none
        else pure (mkRat (sign * ((iv.1 * 10 ^ fv.2 + fv.1 : Nat) : Int)) (10 ^ fv.2))

/-- Python `float(str)`: surrounding whitespace is stripped first. -/
def parsePyFloat (s : String) : Option Rat :=
  parseFloatCore (stripChars s.data)

/-- Python `float(x)` on an arbitrary value. -/
def pyFloatE (v : PyVal) : Except PyErr Rat :=
  match v with
  | .vint n => .ok (mkRat n 1)
  | .vfloat q => .ok q
  | .vstr s =>
      match parsePyFloat s with
      | some q => .ok q
      | none => .error (.valueError "could not convert string to float")
  | _ => .error (.typeError "float() argument must be a string or a real number")

/-- Python `int(q)` on a float: truncation toward zero. -/
def ratTrunc (q : Rat) : Int := Int.tdiv q.num (Int.ofNat q.den)

/-- `.strip()` on a value that the code assumes to be a string
(`AttributeError` otherwise, as in Python). -/
def pyStripStrE (v : PyVal) : Except PyErr String :=
  match v with
  | .vstr s => .ok (pyStrip s)
  | _ => .error (.attributeError "object has no attribute strip")

/-- Python `a + b` (the shapes reachable from `_extract_raw_reviews`). -/
def pyAddE (a b : PyVal) : Except PyErr PyVal :=
  match a, b with
  | .vlist xs, .vlist ys => .ok (.vlist (xs ++ ys))
  | .vstr x, .vstr y => .ok (.vstr (x ++ y))
  | .vint x, .vint y => .ok (.vint (x + y))
  | .vfloat x, .vfloat y => .ok (.vfloat (x + y))
  | .vint x, .vfloat y => .ok (.vfloat ((x : Rat) + y))
  | .vfloat x, .vint y => .ok (.vfloat (x + (y : Rat)))
  | _, _ => .error (.typeError "unsupported operand types for +")

/-! ### Calendar arithmetic (proleptic Gregorian, as used by `datetime`) -/

def isLeap (y : Nat) : Bool :=
  (y % 4 = 0 ∧ y % 100 ≠ 0) ∨ y % 400 = 0

def daysInMonth (y m : Nat) : Nat :=
  if m = 2 then (if isLeap y then 29 else 28)
  else if m = 4 ∨ m = 6 ∨ m = 9 ∨ m = 11 then 30
  else 31

/-- Field validation performed by `datetime` construction (`MINYEAR = 1`). -/
def validYmd (y m d : Nat) : Bool :=
  1 ≤ y ∧ y ≤ 9999 ∧ 1 ≤ m ∧ m ≤ 12 ∧ 1 ≤ d ∧ d ≤ daysInMonth y m

def validHms (h mi s : Nat) : Bool :=
  h ≤ 23 ∧ mi ≤ 59 ∧ s ≤ 59

/-- Days since 0000-03-01 of a civil date (valid `y ≥ 1` inputs). -/
def daysFromCivil (y m d : Nat) : Nat :=
  let y' := if m ≤ 2 then y - 1 else y
  let era := y' / 400
  let yoe := y' % 400
  let mp := if 2 < m then m - 3 else m + 9
  let doy := (153 * mp + 2) / 5 + d - 1
  let doe := yoe * 365 + yoe / 4 - yoe / 100 + doy
  era * 146097 + doe

/-- Epoch seconds of a civil date at midnight (1970-01-01 is day 719468). -/
def tsOfYmd (y m d : Nat) : Int :=
  86400 * ((daysFromCivil y m d : Int) - 719468)

/-- Inverse of `daysFromCivil` on days-since-epoch (valid for year ≥ 1). -/
def civilFromDays (z : Int) : Nat × Nat × Nat :=
  let z' := (z + 719468).toNat
  let era := z' / 146097
  let doe := z' % 146097
  let yoe := (doe - doe / 1460 + doe / 36524 - doe / 146096) / 365
  let y := yoe + era * 400
  let doy := doe - (365 * yoe + yoe / 4 - yoe / 100)
  let mp := (5 * doy + 2) / 153
  let d := doy - (153 * mp + 2) / 5 + 1
  let m := if mp < 10 then mp + 3 else mp - 9
  (if m ≤ 2 then y + 1 else y, m, d)

def padNat (width n : Nat) : List Char :=
  let s := (Nat.repr n).data
  List.replicate (width - s.length) '0' ++ s

/-!
### `datetime` model

`wall` is the wall-clock reading in seconds since the epoch as if it were UTC;
`offset` is the UTC offset in seconds for offset-aware values and `none` for
offset-naive ones.  The absolute instant of an aware value is `wall - offset`;
naive values are interpreted under a UTC process timezone (the deployment and
every stored datum in this repository are UTC), so their `timestamp()` is
`wall` as well.
-/

structure PyDateTime where
  wall : Int
  offset : Option Int
deriving DecidableEq, Repr

/-- `dt.timestamp()` (UTC process timezone for naive values). -/
def dtTimestamp (dt : PyDateTime) : Int := dt.wall - dt.offset.getD 0

/-- `a < b` on datetimes: Python raises `TypeError` when exactly one side is
offset-aware. -/
def pyDtLt (a b : PyDateTime) : Except PyErr Bool :=
  if a.offset.isSome = b.offset.isSome then
    .ok (decide (dtTimestamp a < dtTimestamp b))
  else .error (.typeError "cannot compare offset-naive and offset-aware datetimes")

/-- `a >= b` on datetimes, with the same mixed-awareness `TypeError`. -/
def pyDtGe (a b : PyDateTime) : Except PyErr Bool :=
  if a.offset.isSome = b.offset.isSome then
    .ok (decide (dtTimestamp b ≤ dtTimestamp a))
  else .error (.typeError "cannot compare offset-naive and offset-aware datetimes")

/-- `dt.strftime("%Y-%m-%d")` (the only format the services use). -/
def strftimeYmd (dt : PyDateTime) : String :=
  let c := civilFromDays (Int.fdiv dt.wall 86400)
  (padNat 4 c.1 ++ '-' :: padNat 2 c.2.1 ++ '-' :: padNat 2 c.2.2).asString

/-! ### The ordered date parsers of `_parse_any_date` / `_parse_date` -/

/-- Take a run of decimal digits of length 1 or 2 (as the `%d`/`%m` strptime
fields accept), returning value and remainder. -/
def take12Digits : List Char → Option (Nat × List Char)
  | c1 :: c2 :: rest =>
      match digitVal c1, digitVal c2 with
      | some d1, some d2 => some (d1 * 10 + d2, rest)
      | some d1, none => some (d1, c2 :: rest)
      | none, _ => none
  | [c1] => (digitVal c1).map (fun d => (d, []))
  | [] => none

def take4Digits : List Char → Option (Nat × List Char)
  | c1 :: c2 :: c3 :: c4 :: rest => do
      let d1 ← digitVal c1
      let d2 ← digitVal c2
      let d3 ← digitVal c3
      let d4 ← digitVal c4
      pure (d1 * 1000 + d2 * 100 + d3 * 10 + d4, rest)
  | _ => none

def take2Digits : List Char → Option (Nat × List Char)
  | c1 :: c2 :: rest => do
      let d1 ← digitVal c1
      let d2 ← digitVal c2
      pure (d1 * 10 + d2, rest)
  | _ => none

/-- Skip one or more whitespace characters (strptime treats literal whitespace
in the format as a run of whitespace). -/
def skipWs : List Char → Option (List Char)
  | c :: rest => if isPySpace c then some (rest.dropWhile isPySpace) else none
  | [] => none

def monthNames : List (String × Nat) :=
  [("january", 1), ("february", 2), ("march", 3), ("april", 4), ("may", 5),
   ("june", 6), ("july", 7), ("august", 8), ("september", 9), ("october", 10),
   ("november", 11), ("december", 12)]

/-- Match a full month name case-insensitively (`%B`), returning its number
and the remainder of the input. -/
def takeMonthName (cs : List Char) : Option (Nat × List Char) :=
  (monthNames.filterMap fun (nm, v) =>
    let pat := nm.data
    if (cs.take pat.length).map Char.toLower = pat then some (v, cs.drop pat.length)
    else none).head?

/-- The time-and-offset tail of an ISO-8601 string:
`[Tshh:mm[:ss][±HH:MM]]`.  Returns seconds past midnight and the optional UTC
offset in seconds.  (Modelled subset of `datetime.fromisoformat`: fractional
seconds and exotic separators are outside what the repository feeds.) -/
def parseIsoTail : List Char → Option (Nat × Option Int)
  | [] => some (0, none)
  | sep :: rest =>
      if sep = 'T' ∨ sep = ' ' then do
        let (h, r1) ← take2Digits rest
        match r1 with
        | ':' :: r2 => do
            let (mi, r3) ← take2Digits r2
            let (s, r4) ←
              match r3 with
              | ':' :: r5 => do
                  let (s, r6) ← take2Digits r5
                  pure ((s : Nat), r6)
              | _ => pure (0, r3)
            if validHms h mi s then
              let secs := h * 3600 + mi * 60 + s
              match r4 with
              | [] => some (secs, none)
              | sgn :: r7 =>
                  if sgn = '+' ∨ sgn = '-' then do
                    let (oh, r8) ← take2Digits r7
                    match r8 with
                    | ':' :: r9 => do
                        let (om, r10) ← take2Digits r9
                        if r10 = [] ∧ om ≤ 59 then
                          let o : Int := (oh : Int) * 3600 + (om : Int) * 60
                          some (secs, some (if sgn = '-' then -o else o))
                        else none
                    | _ => none
                  else none
            else none
        | _ => none
      else none

/-- `datetime.fromisoformat` (modelled subset: `YYYY-MM-DD` with an optional
`T`/space-separated `hh:mm[:ss]` time and optional `±HH:MM` offset — the
shapes reachable in this repository after the `"Z" → "+00:00"` rewrite). -/
def parseIsoformat (cs : List Char) : Option PyDateTime := do
  let (y, r1) ← take4Digits cs
  match r1 with
  | '-' :: r2 => do
      let (m, r3) ← take2Digits r2
      match r3 with
      | '-' :: r4 => do
          let (d, r5) ← take2Digits r4
          if validYmd y m d then do
            let (secs, off) ← parseIsoTail r5
            pure ⟨tsOfYmd y m d + (secs : Int), off⟩
          else none
      | _ => none
  | _ => none

/-- `str.replace("Z", "+00:00")` (single-character pattern). -/
def replaceZ : List Char → List Char
  | [] => []
  | c :: rest =>
      if c = 'Z' then '+' :: '0' :: '0' :: ':' :: '0' :: '0' :: replaceZ rest
      else c :: replaceZ rest

/-- `datetime.strptime(v, "%B %d, %Y").replace(tzinfo=UTC)`. -/
def parseMonthDY (cs : List Char) : Option PyDateTime := do
  let (m, r1) ← takeMonthName cs
  let r2 ← skipWs r1
  let (d, r3) ← take12Digits r2
  match r3 with
  | ',' :: r4 => do
      let r5 ← skipWs r4
      let (y, r6) ← take4Digits r5
      if r6 = [] ∧ validYmd y m d then pure ⟨tsOfYmd y m d, some 0⟩ else none
  | _ => none

/-- `datetime.strptime(v, "%d %B %Y").replace(tzinfo=UTC)`. -/
def parseDMonthY (cs : List Char) : Option PyDateTime := do
  let (d, r1) ← take12Digits cs
  let r2 ← skipWs r1
  let (m, r3) ← takeMonthName r2
  let r4 ← skipWs r3
  let (y, r5) ← take4Digits r4
  if r5 = [] ∧ validYmd y m d then pure ⟨tsOfYmd y m d, some 0⟩ else none

/-- `datetime.strptime(v, "%Y-%m-%d").replace(tzinfo=UTC)` (month and day may
be 1 or 2 digits, unlike `fromisoformat`). -/
def parseYmdStrptime (cs : List Char) : Option PyDateTime := do
  let (y, r1) ← take4Digits cs
  match r1 with
  | '-' :: r2 => do
      let (m, r3) ← take12Digits r2
      match r3 with
      | '-' :: r4 => do
          let (d, r5) ← take12Digits r4
          if r5 = [] ∧ validYmd y m d then pure ⟨tsOfYmd y m d, some 0⟩ else none
      | _ => none
  | _ => none

/-- The shared four-parser chain: ISO-8601 (after `Z` rewrite) first, then the
two month-name formats, then bare `%Y-%m-%d`; first success wins and every
parser failure is swallowed. -/
def parseDateChain (s : String) : Option PyDateTime :=
  (parseIsoformat (replaceZ s.data)).orElse fun _ =>
    (parseMonthDY s.data).orElse fun _ =>
      (parseDMonthY s.data).orElse fun _ =>
        parseYmdStrptime s.data

/-- `ReviewEmbeddingService._parse_any_date`: falsy values return `None`; a
truthy non-string makes every parser raise internally (all caught), so it
also returns `None`. -/
def parse_any_date (v : PyVal) : Option PyDateTime :=
  if !v.truthy then none
  else
    match v with
    | .vstr s => parseDateChain s
    | _ => none

/-- `self.v3_start = datetime(2025, 10, 4, tzinfo=UTC)`. -/
def v3_start : PyDateTime := ⟨tsOfYmd 2025 10 4, some 0⟩

/-- `self.v2_start = datetime(2025, 5, 25, tzinfo=UTC)`. -/
def v2_start : PyDateTime := ⟨tsOfYmd 2025 5 25, some 0⟩

/-! ### MD5 digest (library capability, abstracted)

`hashlib.md5(...).hexdigest()` is a library primitive; its 128-bit value is
taken as an abstract parameter `md5bits : String → Nat` (only determinism
matters to the claims).  The hex rendering, prefix truncation and
`int(hex, 16)` re-parsing around it are embedded concretely. -/

def hexDigitVal (c : Char) : Nat :=
  if c.isDigit then c.toNat - 48
  else if 'a' ≤ c ∧ c ≤ 'f' then c.toNat - 87
  else 0

/-- `int(hexstring, 16)` (inputs here are hex by construction). -/
def hexToNat (cs : List Char) : Nat :=
  cs.foldl (fun acc c => acc * 16 + hexDigitVal c) 0

/-- 32-character lowercase hex rendering of a 128-bit digest value. -/
def natToHex32 (n : Nat) : List Char :=
  let ds := Nat.toDigits 16 n
  List.replicate (32 - ds.length) '0' ++ ds

/-- `hashlib.md5(s.encode("utf-8")).hexdigest()`. -/
def md5hexdigest (md5bits : String → Nat) (s : String) : List Char :=
  natToHex32 (md5bits s % 2 ^ 128)

/-! ### `ReviewEmbeddingService` — extraction, identity, normalization -/

/-- `item.get(k)` on the raw review dict. -/
def itemGet (es : List (String × PyVal)) (k : String) : PyVal :=
  dictGetD es k .vnone

/-- `ReviewEmbeddingService._extract_raw_reviews`. -/
def _extract_raw_reviews (payload : PyVal) : Except PyErr PyVal :=
  match payload with
  | .vlist xs => .ok (.vlist xs)
  | .vdict es =>
      match dictLookup es "reviews" with
      | some (.vlist rs) => .ok (.vlist rs)
      | _ => pyAddE (dictGetD es "google_play" (.vlist []))
                    (dictGetD es "apple" (.vlist []))
  | _ => .error (.valueError "Payload must be a review list or object containing reviews")

/-- `ReviewEmbeddingService._stable_review_id`. -/
def _stable_review_id (md5bits : String → Nat) (item : List (String × PyVal)) :
    String :=
  let raw :=
    pyStrOf (dictGetD item "title" (.vstr ""))
    ++ "|" ++ pyStrOf (pyOr (itemGet item "snippet") (pyOr (itemGet item "text") (.vstr "")))
    ++ "|" ++ pyStrOf (pyOr (itemGet item "date") (pyOr (itemGet item "review_date") (.vstr "")))
  "review-" ++ ((md5hexdigest md5bits raw).take 12).asString

/-- The version branch of `_normalize_review_record`: an explicit recognized
tag wins; otherwise classify `dt` against the two cutovers (this comparison
is where Python raises on an offset-naive `dt`); no date means `"v1"`. -/
def reviewVersionE (dt? : Option PyDateTime) (raw_version : String) :
    Except PyErr String :=
  if raw_version = "v1" ∨ raw_version = "v2" ∨ raw_version = "v3" then
    .ok raw_version
  else
    match dt? with
    | some dt =>
        match pyDtGe dt v3_start with
        | .error e => .error e
        | .ok b =>
            if b then .ok "v3"
            else
              match pyDtGe dt v2_start with
              | .error e => .error e
              | .ok b2 => if b2 then .ok "v2" else .ok "v1"
    | none => .ok "v1"

/-- The title expression
`item.get("title") or (item.get("author") or {}).get("name") or "Unknown"`:
`or` short-circuits, so the author dict is only touched when the title is
falsy, and a truthy non-dict author raises `AttributeError` there. -/
def reviewTitleE (item : List (String × PyVal)) : Except PyErr PyVal :=
  let t := itemGet item "title"
  if t.truthy then .ok t
  else
    match pyOr (itemGet item "author") (.vdict []) with
    | .vdict es => .ok (pyOr (dictGetD es "name" .vnone) (.vstr "Unknown"))
    | _ => .error (.attributeError "object has no attribute get")

/-- The normalized record produced by `_normalize_review_record`.  Fields the
code merely passes through keep their dynamic `PyVal` type. -/
structure NormalizedReview where
  id : PyVal
  title : PyVal
  rating : Int
  date : String
  date_ts : Option Int
  version : String
  device : PyVal
  country : PyVal
  review_text : String

/-- `ReviewEmbeddingService._normalize_review_record`.  Computation (and thus
exception) order follows the source: date parse, rating conversion, text
strip/truncate, version classification, then the record literal (whose title
entry may touch the author dict). -/
def _normalize_review_record (md5bits : String → Nat)
    (item : List (String × PyVal)) : Except PyErr NormalizedReview :=
  let dt? := parse_any_date
    (pyOr (itemGet item "iso_date") (pyOr (itemGet item "date") (itemGet item "review_date")))
  match pyFloatE (pyOr (itemGet item "rating") (.vint 0)) with
  | .error e => .error e
  | .ok q =>
    let rating_val := max 1 (min 5 (ratTrunc q))
    match pyStripStrE (pyOr (itemGet item "snippet") (pyOr (itemGet item "text") (.vstr ""))) with
    | .error e => .error e
    | .ok text1 =>
      let review_text :=
        if 600 < text1.length then pyStrip ((text1.data.take 600).asString) else text1
      let raw_version := toLowerStr (pyStrip (pyStrOf (pyOr (itemGet item "version") (.vstr ""))))
      match reviewVersionE dt? raw_version with
      | .error e => .error e
      | .ok version =>
        match reviewTitleE item with
        | .error e => .error e
        | .ok title =>
          .ok { id := pyOr (itemGet item "id") (.vstr (_stable_review_id md5bits item))
              , title := title
              , rating := rating_val
              , date := match dt? with | some dt => strftimeYmd dt | none => ""
              , date_ts := dt?.map dtTimestamp
              , version := version
              , device := pyOr (itemGet item "device") (.vstr "Android")
              , country := pyOr (itemGet item "country") (.vstr "India")
              , review_text := review_text }

/-! ### `QdrantService` — filters, numeric ids, upsert -/

/-- Qdrant filter clause (the three clause kinds `build_filter` emits). -/
inductive FieldCondition where
  | matchValue (key : String) (value : String)
  | matchAny (key : String) (values : List Int)
  | range (key : String) (gte lte : Option Int)
deriving DecidableEq, Repr

/-- `Filter(must=[...])`. -/
structure Filter where
  must : List FieldCondition
deriving DecidableEq, Repr

/-- `device.strip().lower() if device else ""` (and likewise for country and
version) inside `build_filter`. -/
def normFilterStr (s : String) : String :=
  if s ≠ "" then toLowerStr (pyStrip s) else ""

/-- Python truthiness of an `int | None` (`0` and `None` are both falsy). -/
def optIntTruthy : Option Int → Bool
  | none => false
  | some n => n ≠ 0

/-- `[int(r) for r in rating_values if int(r) in [1, 2, 3, 4, 5]]`, guarded by
`if rating_values:`. -/
def cleanRatings (rating_values : Option (List Int)) : List Int :=
  match rating_values with
  | some l =>
      if !l.isEmpty then
        l.filter (fun r => r = 1 ∨ r = 2 ∨ r = 3 ∨ r = 4 ∨ r = 5)
      else []
  | none => []

/-- `QdrantService.build_filter`. -/
def build_filter (device : String) (rating_values : Option (List Int))
    (country version : String) (start_ts end_ts : Option Int) : Option Filter :=
  let ratingConds : List FieldCondition :=
    let clean := cleanRatings rating_values
    if !clean.isEmpty then [.matchAny "rating" clean] else []
  let nd := normFilterStr device
  let nc := normFilterStr country
  let nv := normFilterStr version
  let deviceConds : List FieldCondition :=
    if nd ≠ "" then [.matchValue "device" nd] else []
  let countryConds : List FieldCondition :=
    if nc ≠ "" then [.matchValue "country" nc] else []
  let versionConds : List FieldCondition :=
    if nv ≠ "" then [.matchValue "version" nv] else []
  let rangeConds : List FieldCondition :=
    if optIntTruthy start_ts || optIntTruthy end_ts then
      [.range "date_ts" start_ts end_ts]
    else []
  let must := ratingConds ++ deviceConds ++ countryConds ++ versionConds ++ rangeConds
  if !must.isEmpty then some ⟨must⟩ else none

/-- Index-side clause semantics (per the vector-index capability contract):
exact match, any-of on integers, inclusive range with absent bounds meaning
unbounded; a missing or differently-typed payload field never matches. -/
def evalCondition (payload : List (String × PyVal)) : FieldCondition → Bool
  | .matchValue k v =>
      match dictLookup payload k with
      | some (.vstr s) => s = v
      | _ => false
  | .matchAny k vs =>
      match dictLookup payload k with
      | some (.vint n) => vs.contains n
      | _ => false
  | .range k g l =>
      match dictLookup payload k with
      | some (.vint t) =>
          (match g with | none => true | some gv => decide (gv ≤ t)) &&
          (match l with | none => true | some lv => decide (t ≤ lv))
      | _ => false

/-- `must` clauses are conjunctive. -/
def evalFilter (payload : List (String × PyVal)) (f : Filter) : Bool :=
  f.must.all (evalCondition payload)

/-- `QdrantService._point_id`: `int(md5(value).hexdigest()[:15], 16)`; the
`value.encode` call raises on a non-string id. -/
def _point_id (md5bits : String → Nat) (v : PyVal) : Except PyErr Nat :=
  match v with
  | .vstr s => .ok (hexToNat ((md5hexdigest md5bits s).take 15))
  | _ => .error (.attributeError "object has no attribute encode")

/-- Point payloads and the collection, modelled as a keyed list; `upsert`
overwrites the point with the same numeric id (index-engine contract). -/
abbrev QdrantPayload := List (String × PyVal)

abbrev Store := List (Nat × QdrantPayload)

def upsertPoint (store : Store) (p : Nat × QdrantPayload) : Store :=
  if store.any (fun q => q.1 = p.1) then
    store.map (fun q => if q.1 = p.1 then p else q)
  else store ++ [p]

/-- The point-construction loop of `add_embeddings`: for each `i` in
`range(len(ids))` read `metadatas[i]` then `documents[i]` (an out-of-range
read raises `IndexError`, and indices past `len(ids)` are never touched),
set the `document` payload key, and derive the numeric id.  Embedding vectors
are not modelled; `embed_documents` is order-preserving and 1:1, so the
vector read `embeddings[i]` fails exactly when `documents[i]` does. -/
def buildPoints (md5bits : String → Nat) :
    List PyVal → List String → List QdrantPayload →
    Except PyErr (List (Nat × QdrantPayload))
  | [], _, _ => .ok []
  | idv :: ids, docs, mds =>
      match mds with
      | [] => .error (.indexError "list index out of range")
      | md :: mdt =>
          match docs with
          | [] => .error (.indexError "list index out of range")
          | doc :: doct =>
              match _point_id md5bits idv with
              | .error e => .error e
              | .ok pid =>
                  match buildPoints md5bits ids doct mdt with
                  | .error e => .error e
                  | .ok rest => .ok ((pid, dictSet md "document" (.vstr doc)) :: rest)

/-- `QdrantService.add_embeddings`. -/
def add_embeddings (md5bits : String → Nat) (store : Store) (ids : List PyVal)
    (documents : List String) (metadatas : List QdrantPayload) :
    Except PyErr Store :=
  if ids.isEmpty then .ok store
  else
    match buildPoints md5bits ids documents metadatas with
    | .error e => .error e
    | .ok pts => .ok (pts.foldl upsertPoint store)

/-- `get_points(...)["total_docs"]`: the collection point count. -/
def totalDocs (store : Store) : Nat := store.length

/-- The metadata row built by `create_documents_and_metadata` for one
normalized review. -/
def reviewMetadata (r : NormalizedReview) : QdrantPayload :=
  [("id", r.id), ("title", r.title), ("rating", .vint r.rating),
   ("date", .vstr r.date),
   ("date_ts", match r.date_ts with | some t => .vint t | none => .vnone),
   ("version", .vstr r.version),
   ("device", .vstr (toLowerStr (pyStrOf r.device))),
   ("country", .vstr (toLowerStr (pyStrOf r.country)))]

/-- Ingestion of a single raw review: normalize, project to
`(ids, documents, metadatas)`, upsert (the per-item slice of
`ingest_reviews_from_payload`). -/
def ingestOne (md5bits : String → Nat) (store : Store)
    (item : List (String × PyVal)) : Except PyErr Store :=
  match _normalize_review_record md5bits item with
  | .error e => .error e
  | .ok r => add_embeddings md5bits store [r.id] [r.review_text] [reviewMetadata r]

/-! ### `SearchReviewService` — filtered retrieval -/

/-- `SearchReviewService._parse_date` (same four-parser chain; `None` and
`""` are both falsy and modelled as `""`). -/
def _parse_date (value : String) : Option PyDateTime :=
  if value = "" then none else parseDateChain value

/-- The end-bound half of `_is_date_in_range`:
`if end_dt and dt > end_dt: return False` then `return True`. -/
def rangeEndCheck (dt : PyDateTime) (e : Option PyDateTime) : Except PyErr Bool :=
  match e with
  | some ed =>
      match pyDtLt ed dt with
      | .error er => .error er
      | .ok b => if b then .ok false else .ok true
  | none => .ok true

/-- `SearchReviewService._is_date_in_range`. -/
def _is_date_in_range (value : String) (s e : Option PyDateTime) :
    Except PyErr Bool :=
  if s.isNone && e.isNone then .ok true
  else
    match _parse_date value with
    | none => .ok false
    | some dt =>
        match s with
        | some sd =>
            match pyDtLt dt sd with
            | .error er => .error er
            | .ok b => if b then .ok false else rangeEndCheck dt e
        | none => rangeEndCheck dt e

/-- The structured inputs of `SearchReviewService.query` (absent string
arguments are `""`, as in the Python defaults). -/
structure QueryArgs where
  question : String := ""
  start_date : String := ""
  end_date : String := ""
  device : String := ""
  rating : Option (List Int) := none
  country : String := ""
  version : String := ""
  mobile_model : String := ""

/-- One point returned by the index for the over-fetch query: the fallback id
string, the stored document text, and the remaining payload (`qdrant.query`
builds these three in lockstep, so they are modelled as one record). -/
structure RetrievedItem where
  rid : String
  document : String
  metadata : List (String × PyVal)

/-- One evidence item of the final result. -/
structure Evidence where
  text : String
  id : PyVal
  rating : PyVal
  date : PyVal
  version : PyVal
  device : String
  country : String

/-- The `applied_filters` record (a key is `none` when the code omits it). -/
structure AppliedFilters where
  start_date : Option String
  end_date : Option String
  device : Option String
  rating : Option (List Int)
  country : Option String
  version : Option String

/-- The result of `query` (the fixed `next_action` instruction constant is
not modelled; no claim concerns it). -/
structure QueryOutput where
  question : String
  retrieved_documents : List Evidence
  applied : AppliedFilters
  notes : List String

/-- `device.lower() if device else ""` (no strip, unlike country/version). -/
def normalized_device_of (device : String) : String :=
  if device ≠ "" then toLowerStr device else ""

/-- `country.strip().lower() if country else ""` (same for version). -/
def normalized_cv_of (s : String) : String :=
  if s ≠ "" then toLowerStr (pyStrip s) else ""

/-- `[int(r) for r in (rating or []) if int(r) in [1, 2, 3, 4, 5]]`. -/
def rating_values_of (rating : Option (List Int)) : List Int :=
  (rating.getD []).filter (fun r => r = 1 ∨ r = 2 ∨ r = 3 ∨ r = 4 ∨ r = 5)

/-- The note recorded when `mobile_model` is supplied. -/
def mobile_model_note (effective_device : String) : String :=
  "The mobile_model filter is not supported in our current system and was ignored. We used the device filter instead: "
  ++ effective_device ++ "."

/-- The proxy device named in the note: iOS only when the explicit (lowered)
device hint is `"ios"`; the model string itself is never inspected. -/
def effective_device_of (args : QueryArgs) : String :=
  if normalized_device_of args.device = "ios" then "iOS" else "Android"

/-- The `notes` list built by `query`. -/
def notes_of (args : QueryArgs) : List String :=
  if args.mobile_model ≠ "" then [mobile_model_note (effective_device_of args)]
  else []

/-- The `applied_filters` dict built by `query` (each key only when its
normalized value is truthy). -/
def applied_of (args : QueryArgs) : AppliedFilters :=
  { start_date := if args.start_date ≠ "" then some args.start_date else none
  , end_date := if args.end_date ≠ "" then some args.end_date else none
  , device :=
      if normalized_device_of args.device ≠ "" then
        some (if normalized_device_of args.device = "ios" then "iOS" else "Android")
      else none
  , rating :=
      if !(rating_values_of args.rating).isEmpty then some (rating_values_of args.rating)
      else none
  , country :=
      if normalized_cv_of args.country ≠ "" then some (normalized_cv_of args.country)
      else none
  , version :=
      if normalized_cv_of args.version ≠ "" then some (normalized_cv_of args.version)
      else none }

/-- `end_ts`: the parsed end-date timestamp, extended by `86399` seconds
("one day minus one second") to make whole-day inputs inclusive. -/
def query_end_ts (end_date : String) : Option Int :=
  (_parse_date end_date).map (fun dt => dtTimestamp dt + 86399)

/-- The index-level filter `query` hands to `qdrant.build_filter`. -/
def query_built_filter (args : QueryArgs) : Option Filter :=
  build_filter (normalized_device_of args.device) (some (rating_values_of args.rating))
    (normalized_cv_of args.country) (normalized_cv_of args.version)
    ((_parse_date args.start_date).map dtTimestamp) (query_end_ts args.end_date)

/-- Projection of a surviving retrieved item into an evidence entry. -/
def projectItem (it : RetrievedItem) : Evidence :=
  { text := it.document
  , id := pyOr (dictGetD it.metadata "id" .vnone) (.vstr it.rid)
  , rating := dictGetD it.metadata "rating" .vnone
  , date := dictGetD it.metadata "date" .vnone
  , version := dictGetD it.metadata "version" .vnone
  , device := pyStrOf (pyOr (dictGetD it.metadata "device" .vnone) (.vstr ""))
  , country := pyStrOf (pyOr (dictGetD it.metadata "country" .vnone) (.vstr "")) }

/-- The second-pass loop of `query`: re-validate each stored date string
against `[start_dt, end_dt]`, keep survivors in retrieval order, and break
once 12 have been kept. -/
def secondPass (s e : Option PyDateTime) :
    List RetrievedItem → Nat → Except PyErr (List Evidence)
  | [], _ => .ok []
  | it :: rest, kept =>
      match _is_date_in_range
          (pyStrOf (pyOr (dictGetD it.metadata "date" .vnone) (.vstr ""))) s e with
      | .error er => .error er
      | .ok b =>
          if b then
            if 12 ≤ kept + 1 then .ok [projectItem it]
            else
              match secondPass s e rest (kept + 1) with
              | .error er => .error er
              | .ok tl => .ok (projectItem it :: tl)
          else secondPass s e rest kept

/-- `SearchReviewService.query`, given the index response `retrieved` for the
over-fetch similarity query (the vector search itself is the index
capability). -/
def query (args : QueryArgs) (retrieved : List RetrievedItem) :
    Except PyErr QueryOutput :=
  match secondPass (_parse_date args.start_date) (_parse_date args.end_date) retrieved 0 with
  | .error e => .error e
  | .ok docs => .ok ⟨args.question, docs, applied_of args, notes_of args⟩

/-- Fallibility test used throughout the statements. -/
def isOkE {ε α : Type} : Except ε α → Bool
  | .ok _ => true
  | .error _ => false

/-- The rating expression only converts: a numeric value, or a falsy one
(replaced by `0`), or a string that parses as a float literal. -/
def ratingFieldOk (item : List (String × PyVal)) : Bool :=
  match pyOr (itemGet item "rating") (.vint 0) with
  | .vint _ => true
  | .vfloat _ => true
  | .vstr s => (parsePyFloat s).isSome
  | _ => false

/-- The text expression needs the chosen snippet/text value to be a string. -/
def textFieldOk (item : List (String × PyVal)) : Bool :=
  (pyOr (itemGet item "snippet") (pyOr (itemGet item "text") (.vstr ""))).isStr

/-- Version classification avoids the naive/aware comparison `TypeError` only
when an explicit tag is supplied, or the date fails to parse, or it parses
offset-aware. -/
def versionFieldOk (item : List (String × PyVal)) : Bool :=
  (let rawv := toLowerStr (pyStrip (pyStrOf (pyOr (itemGet item "version") (.vstr ""))))
   decide (rawv = "v1" ∨ rawv = "v2" ∨ rawv = "v3")) ||
    (match parse_any_date (pyOr (itemGet item "iso_date")
        (pyOr (itemGet item "date") (itemGet item "review_date"))) with
     | none => true
     | some dt => dt.offset.isSome)

/-- The title expression touches `(item.get("author") or {}).get("name")`
only when the title is falsy; it then needs the defaulted author to be a
dict. -/
def titleFieldOk (item : List (String × PyVal)) : Bool :=
  (itemGet item "title").truthy ||
    (match pyOr (itemGet item "author") (.vdict []) with
     | .vdict _ => true
     | _ => false)

def c3_item : List (String × PyVal) :=
  [("id", .vstr "r1"), ("title", .vstr "A"), ("snippet", .vstr "hi")]

def c3_store : Store :=
  [(0, [("id", .vstr "r1"), ("title", .vstr "A"), ("rating", .vint 1),
        ("date", .vstr ""), ("date_ts", .vnone), ("version", .vstr "v1"),
        ("device", .vstr "android"), ("country", .vstr "india"),
        ("document", .vstr "hi")])]

/-- Whether a filter carries an exact-match clause on the `device` key. -/
def hasDeviceClause (f : Filter) : Bool :=
  f.must.any fun c =>
    match c with
    | .matchValue k _ => k = "device"
    | _ => false

def c2_args : QueryArgs := { question := "q", mobile_model := "iPhone 14" }

def c2_out : QueryOutput :=
  { question := "q", retrieved_documents := []
  , applied := { start_date := none, end_date := none, device := none,
                 rating := none, country := none, version := none }
  , notes := [mobile_model_note "Android"] }

/-! ## Theorems -/

/-- `payload.get("google_play", []) + payload.get("apple", [])` can raise
`TypeError` but never `ValueError`. -/
theorem pyAddE_not_valueError (a b : PyVal) (m : String) :
    pyAddE a b ≠ .error (.valueError m) := by
  cases a <;> cases b <;> simp [pyAddE]

/-- C6 (counterexample): a dict with none of the recognized keys — here the
empty dict, which matches none of the three accepted payload shapes — yields
an empty review list instead of raising the validation error the claim
requires. -/
theorem c6_counterexample :
    _extract_raw_reviews (.vdict []) = .ok (.vlist []) := rfl

/-- C6 (amended): `_extract_raw_reviews` returns a bare list unchanged,
returns the `"reviews"` list of a dict that has one, returns the empty list
for a dict with none of the recognized keys, and raises `ValueError` exactly
when the payload is neither a list nor a dict — not when a dict merely
matches none of the three shapes. -/
theorem c6_extract_shapes (p : PyVal) :
    (∀ xs, p = .vlist xs → _extract_raw_reviews p = .ok (.vlist xs))
  ∧ (∀ es rs, p = .vdict es → dictLookup es "reviews" = some (.vlist rs) →
      _extract_raw_reviews p = .ok (.vlist rs))
  ∧ (∀ es, p = .vdict es → dictLookup es "reviews" = none →
      dictLookup es "google_play" = none → dictLookup es "apple" = none →
      _extract_raw_reviews p = .ok (.vlist []))
  ∧ ((∃ m, _extract_raw_reviews p = .error (.valueError m)) ↔
      (p.isList = false ∧ p.isDict = false)) := by
  refine ⟨?_, ?_, ?_, ?_⟩
  · rintro xs rfl; rfl
  · rintro es rs rfl hl
    simp [_extract_raw_reviews, hl]
  · rintro es rfl h1 h2 h3
    simp [_extract_raw_reviews, h1, h2, h3, dictGetD, pyAddE]
  · cases p with
    | vlist xs => simp [_extract_raw_reviews, PyVal.isList]
    | vdict es =>
        simp only [PyVal.isList, PyVal.isDict]
        constructor
        · rintro ⟨m, hm⟩
          exfalso
          have hm' : (match dictLookup es "reviews" with
              | some (PyVal.vlist rs) => Except.ok (PyVal.vlist rs)
              | _ => pyAddE (dictGetD es "google_play" (.vlist []))
                            (dictGetD es "apple" (.vlist []))) =
              Except.error (PyErr.valueError m) := hm
          rcases h : dictLookup es "reviews" with _ | v
          · rw [h] at hm'
            exact pyAddE_not_valueError _ _ m hm'
          · cases v <;> rw [h] at hm' <;>
              first
                | exact pyAddE_not_valueError _ _ m hm'
                | simp at hm'
        · rintro ⟨_, h⟩; simp at h
    | vnone => exact ⟨fun _ => ⟨rfl, rfl⟩, fun _ => ⟨_, rfl⟩⟩
    | vstr s => exact ⟨fun _ => ⟨rfl, rfl⟩, fun _ => ⟨_, rfl⟩⟩
    | vint n => exact ⟨fun _ => ⟨rfl, rfl⟩, fun _ => ⟨_, rfl⟩⟩
    | vfloat q => exact ⟨fun _ => ⟨rfl, rfl⟩, fun _ => ⟨_, rfl⟩⟩

/-- C6 (witness): the dict-with-`reviews` shape at a concrete payload. -/
theorem c6_witness :
    _extract_raw_reviews (.vdict [("reviews", .vlist [.vint 1])]) =
      .ok (.vlist [.vint 1]) :=
  (c6_extract_shapes _).2.1 _ _ rfl rfl

/-- C7 (counterexample): `start_ts = 0` is falsy in Python, so
`build_filter` with only a zero start timestamp set returns no filter at all
— the claim requires an inclusive range clause for "a timestamp value of 0". -/
theorem c7_counterexample :
    build_filter "" none "" "" (some 0) none = none := rfl

/-- C7 (amended): `build_filter` returns `None` exactly when the cleaned
ratings list, the normalized device/country/version strings, and both
timestamps are all falsy (a timestamp of `0` counting as falsy, contrary to
the claim); all supplied clauses land conjunctively in `must`; a non-empty
cleaned ratings list contributes the any-of clause; a truthy timestamp pair
contributes the range clause on `date_ts`, whose semantics is inclusive on
both ends with an absent bound meaning unbounded. -/
theorem c7_build_filter_semantics (device : String) (rv : Option (List Int))
    (country version : String) (s e : Option Int) :
    (build_filter device rv country version s e = none ↔
      (cleanRatings rv = [] ∧ normFilterStr device = "" ∧ normFilterStr country = ""
        ∧ normFilterStr version = "" ∧ optIntTruthy s = false ∧ optIntTruthy e = false))
  ∧ (∀ f, build_filter device rv country version s e = some f →
      cleanRatings rv ≠ [] →
      FieldCondition.matchAny "rating" (cleanRatings rv) ∈ f.must)
  ∧ (∀ f, build_filter device rv country version s e = some f →
      (optIntTruthy s || optIntTruthy e) = true →
      FieldCondition.range "date_ts" s e ∈ f.must)
  ∧ (∀ p t, dictLookup p "date_ts" = some (.vint t) →
      (evalCondition p (.range "date_ts" s e) = true ↔
        ((∀ sv, s = some sv → sv ≤ t) ∧ (∀ ev, e = some ev → t ≤ ev))))
  ∧ (∀ f p, build_filter device rv country version s e = some f →
      (evalFilter p f = true ↔ ∀ c ∈ f.must, evalCondition p c = true)) := by
  refine ⟨?_, ?_, ?_, ?_, ?_⟩
  · unfold build_filter
    by_cases hr : cleanRatings rv = [] <;>
    by_cases hd : normFilterStr device = "" <;>
    by_cases hc : normFilterStr country = "" <;>
    by_cases hv : normFilterStr version = "" <;>
    cases hs : optIntTruthy s <;>
    cases he : optIntTruthy e <;>
      simp [hr, hd, hc, hv, hs, he, List.isEmpty_iff]
  · intro f hf hr
    simp only [build_filter] at hf
    split_ifs at hf <;>
      first
        | (injection hf with hf; subst hf; simp; done)
        | simp_all [List.isEmpty_iff]
  · intro f hf hts
    simp only [build_filter] at hf
    split_ifs at hf <;>
      first
        | (injection hf with hf; subst hf; simp; done)
        | simp_all [List.isEmpty_iff]
  · intro p t hp
    simp only [evalCondition, hp]
    cases s <;> cases e <;>
      simp [decide_eq_true_eq]
  · intro f p _
    simp [evalFilter, List.all_eq_true]

/-- C7 (witness): with ratings `[5, 9]` (9 discarded) and `end_ts = 10`, the
any-of and range clauses are both present, and the inclusive range semantics
accepts a payload timestamp inside the bound. -/
theorem c7_witness :
    (FieldCondition.matchAny "rating" [5] ∈
      (Filter.mk [FieldCondition.matchAny "rating" [5],
        FieldCondition.range "date_ts" none (some 10)]).must)
  ∧ (FieldCondition.range "date_ts" none (some 10) ∈
      (Filter.mk [FieldCondition.matchAny "rating" [5],
        FieldCondition.range "date_ts" none (some 10)]).must)
  ∧ evalCondition [("date_ts", .vint 7)]
      (.range "date_ts" none (some 10)) = true := by
  refine ⟨?_, ?_, ?_⟩
  · exact (c7_build_filter_semantics "" (some [5, 9]) "" "" none (some 10)).2.1
      _ rfl (by decide)
  · exact (c7_build_filter_semantics "" (some [5, 9]) "" "" none (some 10)).2.2.1
      _ rfl (by decide)
  · refine ((c7_build_filter_semantics "" (some [5, 9]) "" "" none
        (some 10)).2.2.2.1 [("date_ts", .vint 7)] 7 rfl).mpr ⟨?_, ?_⟩
    · intro sv hsv; cases hsv
    · intro ev hev; cases hev; decide

/-- The point loop raises `IndexError` when documents or metadata run out
before the ids do. -/
theorem buildPoints_short (md5bits : String → Nat) :
    ∀ (ids : List PyVal) (docs : List String) (mds : List QdrantPayload),
      (∀ v ∈ ids, v.isStr = true) →
      (docs.length < ids.length ∨ mds.length < ids.length) →
      buildPoints md5bits ids docs mds = .error (.indexError "list index out of range") := by
  intro ids
  induction ids with
  | nil => intro docs mds _ hlen; simp at hlen
  | cons idv rest ih =>
      intro docs mds hstr hlen
      cases mds with
      | nil => rfl
      | cons md mdt =>
          cases docs with
          | nil => rfl
          | cons doc doct =>
              have hstr0 : idv.isStr = true := hstr idv (List.mem_cons_self _ _)
              obtain ⟨s, rfl⟩ : ∃ s, idv = .vstr s := by
                cases idv <;> simp [PyVal.isStr] at hstr0 ⊢
              have hrec : buildPoints md5bits rest doct mdt =
                  .error (.indexError "list index out of range") := by
                apply ih doct mdt (fun v hv => hstr v (List.mem_cons_of_mem _ hv))
                simpa [Nat.succ_lt_succ_iff] using hlen
              simp [buildPoints, _point_id, hrec]

/-- The point loop succeeds whenever each id is a string and both other lists
are at least as long as `ids` — trailing entries are never touched. -/
theorem buildPoints_long_ok (md5bits : String → Nat) :
    ∀ (ids : List PyVal) (docs : List String) (mds : List QdrantPayload),
      (∀ v ∈ ids, v.isStr = true) →
      ids.length ≤ docs.length → ids.length ≤ mds.length →
      isOkE (buildPoints md5bits ids docs mds) = true := by
  intro ids
  induction ids with
  | nil => intro docs mds _ _ _; rfl
  | cons idv rest ih =>
      intro docs mds hstr h1 h2
      cases mds with
      | nil => simp at h2
      | cons md mdt =>
          cases docs with
          | nil => simp at h1
          | cons doc doct =>
              have hstr0 : idv.isStr = true := hstr idv (List.mem_cons_self _ _)
              obtain ⟨s, rfl⟩ : ∃ s, idv = .vstr s := by
                cases idv <;> simp [PyVal.isStr] at hstr0 ⊢
              have hrec := ih doct mdt (fun v hv => hstr v (List.mem_cons_of_mem _ hv))
                (by simpa using h1) (by simpa using h2)
              simp only [buildPoints, _point_id]
              cases hb : buildPoints md5bits rest doct mdt with
              | error e => rw [hb] at hrec; simp [isOkE] at hrec
              | ok pts => simp [hb, isOkE]

/-- C8 (counterexample): with `ids` shorter than `documents`/`metadatas`
(lengths 1, 2, 2), `add_embeddings` succeeds and silently drops the trailing
document and metadata row, contradicting the claimed indexing error. -/
theorem c8_counterexample :
    add_embeddings (fun _ => 0) [] [.vstr "a"] ["d1", "d2"]
        [[("k", .vstr "v")], []] =
      .ok [(0, [("k", .vstr "v"), ("document", .vstr "d1")])] := rfl

/-- C8 (amended): the loop runs over `range(len(ids))`, so `add_embeddings`
raises `IndexError` when `documents` or `metadatas` is shorter than a
non-empty `ids` (ids all strings), but when `ids` is the shortest list it
succeeds and silently drops the trailing documents and metadata. -/
theorem c8_add_embeddings_lengths (md5bits : String → Nat) (store : Store)
    (ids : List PyVal) (documents : List String) (metadatas : List QdrantPayload) :
    ((∀ v ∈ ids, v.isStr = true) → ids ≠ [] →
      (documents.length < ids.length ∨ metadatas.length < ids.length) →
      add_embeddings md5bits store ids documents metadatas =
        .error (.indexError "list index out of range"))
  ∧ ((∀ v ∈ ids, v.isStr = true) → ids.length ≤ documents.length →
      ids.length ≤ metadatas.length →
      isOkE (add_embeddings md5bits store ids documents metadatas) = true) := by
  constructor
  · intro hstr hne hlen
    have hbp := buildPoints_short md5bits ids documents metadatas hstr hlen
    have hni : ids.isEmpty = false := by
      cases ids with
      | nil => exact absurd rfl hne
      | cons a l => rfl
    simp [add_embeddings, hni, hbp]
  · intro hstr h1 h2
    have hbp := buildPoints_long_ok md5bits ids documents metadatas hstr h1 h2
    cases hb : buildPoints md5bits ids documents metadatas with
    | error e => rw [hb] at hbp; simp [isOkE] at hbp
    | ok pts =>
        cases ids with
        | nil => rfl
        | cons a l => simp [add_embeddings, hb, isOkE]

/-- C8 (witness): both halves of the amended statement at concrete batches. -/
theorem c8_witness :
    add_embeddings (fun _ => 0) [] [.vstr "a"] [] [[("k", .vstr "v")]] =
      .error (.indexError "list index out of range")
  ∧ isOkE (add_embeddings (fun _ => 0) [] [.vstr "a"] ["d1"] [[("k", .vstr "v")]]) = true := by
  constructor
  · exact (c8_add_embeddings_lengths (fun _ => 0) [] [.vstr "a"] [] [[("k", .vstr "v")]]).1
      (by intro v hv; rw [List.mem_singleton] at hv; subst hv; rfl)
      (by simp) (by simp)
  · exact (c8_add_embeddings_lengths (fun _ => 0) [] [.vstr "a"] ["d1"] [[("k", .vstr "v")]]).2
      (by intro v hv; rw [List.mem_singleton] at hv; subst hv; rfl)
      (by simp) (by simp)

theorem length_dropWhile_le (p : Char → Bool) (l : List Char) :
    (l.dropWhile p).length ≤ l.length := by
  induction l with
  | nil => simp
  | cons a l ih =>
      by_cases h : p a <;> simp [List.dropWhile, h] <;> omega

theorem length_stripChars_le (cs : List Char) :
    (stripChars cs).length ≤ cs.length := by
  unfold stripChars
  have h1 := length_dropWhile_le isPySpace cs
  have h2 := length_dropWhile_le isPySpace (cs.dropWhile isPySpace).reverse
  simp only [List.length_reverse] at *
  omega

theorem pyStrip_length_le (s : String) : (pyStrip s).length ≤ s.length :=
  length_stripChars_le s.data

/-- Every value `reviewVersionE` can return is one of the three tags. -/
theorem reviewVersionE_mem (dt? : Option PyDateTime) (rawv v : String)
    (h : reviewVersionE dt? rawv = .ok v) :
    v = "v1" ∨ v = "v2" ∨ v = "v3" := by
  unfold reviewVersionE at h
  split_ifs at h with htag
  · injection h with h; subst h; exact htag
  · cases dt? with
    | none => injection h with h; subst h; left; rfl
    | some dt =>
        cases hg : pyDtGe dt v3_start with
        | error e => simp only [hg] at h; cases h
        | ok b =>
            simp only [hg] at h
            cases b with
            | true => simp at h; subst h; right; right; rfl
            | false =>
                simp only [Bool.false_eq_true, if_false] at h
                cases hg2 : pyDtGe dt v2_start with
                | error e => simp only [hg2] at h; cases h
                | ok b2 =>
                    simp only [hg2] at h
                    cases b2 with
                    | true => simp at h; subst h; right; left; rfl
                    | false => simp at h; subst h; left; rfl

/-- C4 (confirmed): whenever normalization returns, the rating is an integer
clamped into `{1,...,5}`, the review text is at most 600 characters, and the
version is one of the three tags. -/
theorem c4_normalize_invariants (md5bits : String → Nat)
    (item : List (String × PyVal)) (r : NormalizedReview)
    (h : _normalize_review_record md5bits item = .ok r) :
    (1 ≤ r.rating ∧ r.rating ≤ 5) ∧ r.review_text.length ≤ 600 ∧
      (r.version = "v1" ∨ r.version = "v2" ∨ r.version = "v3") := by
  unfold _normalize_review_record at h
  cases hq : pyFloatE (pyOr (itemGet item "rating") (.vint 0)) with
  | error e => simp only [hq] at h; cases h
  | ok q =>
  simp only [hq] at h
  cases ht : pyStripStrE (pyOr (itemGet item "snippet") (pyOr (itemGet item "text") (.vstr ""))) with
  | error e => simp only [ht] at h; cases h
  | ok text1 =>
  simp only [ht] at h
  cases hv : reviewVersionE
      (parse_any_date (pyOr (itemGet item "iso_date")
        (pyOr (itemGet item "date") (itemGet item "review_date"))))
      (toLowerStr (pyStrip (pyStrOf (pyOr (itemGet item "version") (.vstr ""))))) with
  | error e => simp only [hv] at h; cases h
  | ok version =>
  simp only [hv] at h
  cases hti : reviewTitleE item with
  | error e => simp only [hti] at h; cases h
  | ok title =>
  simp only [hti] at h
  injection h with h
  subst h
  refine ⟨⟨le_max_left _ _, max_le (by norm_num) (min_le_left _ _)⟩, ?_, ?_⟩
  · show (if 600 < text1.length then pyStrip ((text1.data.take 600).asString)
        else text1).length ≤ 600
    split_ifs with hlen
    · calc (pyStrip ((text1.data.take 600).asString)).length
          ≤ ((text1.data.take 600).asString).length := pyStrip_length_le _
        _ = (text1.data.take 600).length := rfl
        _ ≤ 600 := by simp
    · omega
  · exact reviewVersionE_mem _ _ _ hv

/-- C4 (witness): a fractional string rating `"4.7"` truncates and clamps to
4, the text stays within budget, and the dateless review classifies `"v1"`. -/
theorem c4_witness :
    (1 ≤ (4 : Int) ∧ (4 : Int) ≤ 5) ∧ ("ok" : String).length ≤ 600 ∧
      (("v1" : String) = "v1" ∨ ("v1" : String) = "v2" ∨ ("v1" : String) = "v3") :=
  c4_normalize_invariants (fun _ => 0)
    [("title", .vstr "T"), ("snippet", .vstr "ok"), ("rating", .vstr "4.7")]
    ⟨.vstr "review-000000000000", .vstr "T", 4, "", none, "v1",
      .vstr "Android", .vstr "India", "ok"⟩ rfl

/-- C1 (counterexample): a dict whose rating is the non-numeric string
`"five stars"` — an input the claim explicitly covers — makes
`int(float(item.get("rating") or 0))` raise `ValueError`, so normalization is
not total. -/
theorem c1_counterexample :
    isOkE (_normalize_review_record (fun _ => 0) [("rating", .vstr "five stars")]) = false := rfl

theorem reviewVersionE_ok_cases (dt? : Option PyDateTime) (rawv : String)
    (h : (rawv = "v1" ∨ rawv = "v2" ∨ rawv = "v3") ∨ dt? = none ∨
         ∃ dt, dt? = some dt ∧ dt.offset.isSome = true) :
    ∃ v, reviewVersionE dt? rawv = .ok v := by
  unfold reviewVersionE
  split_ifs with htag
  · exact ⟨rawv, rfl⟩
  · rcases h with h | rfl | ⟨dt, rfl, hdt⟩
    · exact absurd h htag
    · exact ⟨"v1", rfl⟩
    · simp only [pyDtGe, v3_start, v2_start, Option.isSome_some, hdt, if_true]
      split_ifs <;> exact ⟨_, rfl⟩

/-- C1 (amended): normalization never raises provided the rating value is
numeric (or falsy or a numeric string), the snippet/text value is a string,
the date is absent, unparseable, or parses offset-aware (bare `YYYY-MM-DD`
dates parse offset-naive and raise unless an explicit version tag
preempts the comparison), and a falsy title comes with a dict (or falsy)
author.  On malformed fields outside this domain the code raises rather than
degrading to defaults, contrary to the claim. -/
theorem c1_normalize_total_on_domain (md5bits : String → Nat)
    (item : List (String × PyVal))
    (h1 : ratingFieldOk item = true) (h2 : textFieldOk item = true)
    (h3 : versionFieldOk item = true) (h4 : titleFieldOk item = true) :
    isOkE (_normalize_review_record md5bits item) = true := by
  obtain ⟨q, hq⟩ : ∃ q, pyFloatE (pyOr (itemGet item "rating") (.vint 0)) = .ok q := by
    unfold ratingFieldOk at h1
    cases hv : pyOr (itemGet item "rating") (.vint 0) with
    | vint n => exact ⟨_, rfl⟩
    | vfloat q => exact ⟨_, rfl⟩
    | vstr s =>
        rw [hv] at h1
        simp only [Option.isSome_iff_exists] at h1
        obtain ⟨q, hps⟩ := h1
        exact ⟨q, by simp [pyFloatE, hps]⟩
    | vnone => rw [hv] at h1; simp at h1
    | vlist xs => rw [hv] at h1; simp at h1
    | vdict es => rw [hv] at h1; simp at h1
  obtain ⟨t, ht⟩ : ∃ t,
      pyStripStrE (pyOr (itemGet item "snippet") (pyOr (itemGet item "text") (.vstr ""))) = .ok t := by
    unfold textFieldOk at h2
    cases hv : pyOr (itemGet item "snippet") (pyOr (itemGet item "text") (.vstr "")) with
    | vstr s => exact ⟨_, rfl⟩
    | vnone => rw [hv] at h2; simp [PyVal.isStr] at h2
    | vint n => rw [hv] at h2; simp [PyVal.isStr] at h2
    | vfloat q => rw [hv] at h2; simp [PyVal.isStr] at h2
    | vlist xs => rw [hv] at h2; simp [PyVal.isStr] at h2
    | vdict es => rw [hv] at h2; simp [PyVal.isStr] at h2
  obtain ⟨ver, hver⟩ : ∃ v, reviewVersionE
      (parse_any_date (pyOr (itemGet item "iso_date")
        (pyOr (itemGet item "date") (itemGet item "review_date"))))
      (toLowerStr (pyStrip (pyStrOf (pyOr (itemGet item "version") (.vstr ""))))) = .ok v := by
    apply reviewVersionE_ok_cases
    unfold versionFieldOk at h3
    rw [Bool.or_eq_true] at h3
    rcases h3 with h3 | h3
    · left
      exact of_decide_eq_true h3
    · cases hpd : parse_any_date (pyOr (itemGet item "iso_date")
          (pyOr (itemGet item "date") (itemGet item "review_date"))) with
      | none => exact Or.inr (Or.inl rfl)
      | some dt =>
          refine Or.inr (Or.inr ⟨dt, rfl, ?_⟩)
          rw [hpd] at h3
          simpa using h3
  obtain ⟨title, hti⟩ : ∃ t, reviewTitleE item = .ok t := by
    simp only [reviewTitleE]
    split_ifs with htr
    · exact ⟨_, rfl⟩
    · unfold titleFieldOk at h4
      rw [Bool.or_eq_true] at h4
      rcases h4 with h4 | h4
      · exact absurd h4 htr
      · cases hv : pyOr (itemGet item "author") (.vdict []) with
        | vdict es => exact ⟨_, rfl⟩
        | vnone => rw [hv] at h4; simp at h4
        | vstr s => rw [hv] at h4; simp at h4
        | vint n => rw [hv] at h4; simp at h4
        | vfloat q => rw [hv] at h4; simp at h4
        | vlist xs => rw [hv] at h4; simp at h4
  unfold _normalize_review_record
  simp only [hq, ht, hver, hti]
  rfl

/-- C1 (witness): a well-formed raw review inside the amended domain. -/
theorem c1_witness :
    ratingFieldOk [("title", .vstr "A"), ("snippet", .vstr "Great app"), ("rating", .vstr "4.5")] = true
  ∧ textFieldOk [("title", .vstr "A"), ("snippet", .vstr "Great app"), ("rating", .vstr "4.5")] = true
  ∧ versionFieldOk [("title", .vstr "A"), ("snippet", .vstr "Great app"), ("rating", .vstr "4.5")] = true
  ∧ titleFieldOk [("title", .vstr "A"), ("snippet", .vstr "Great app"), ("rating", .vstr "4.5")] = true
  ∧ isOkE (_normalize_review_record (fun _ => 0)
      [("title", .vstr "A"), ("snippet", .vstr "Great app"), ("rating", .vstr "4.5")]) = true :=
  ⟨rfl, rfl, rfl, rfl,
    c1_normalize_total_on_domain (fun _ => 0) _ rfl rfl rfl rfl⟩

/-- C5 (code bug): `datetime.fromisoformat` — the first parser tried —
returns an offset-naive datetime for bare `YYYY-MM-DD` strings, so a review
dated exactly `"2025-10-04"` (the `v3_start` boundary) makes
`dt >= self.v3_start` raise `TypeError` instead of classifying `"v3"`; this
contradicts `_parse_any_date`'s own docstring ("Parse supported date formats
... into UTC datetime") and dead-ends the dedicated
`strptime("%Y-%m-%d").replace(tzinfo=UTC)` parser written for exactly these
strings.  With offset-aware inputs the claimed classification holds: the
instant `v3_start` gives `"v3"`, one second earlier gives `"v2"`, no
parseable date gives `"v1"`, an explicit tag takes precedence, and the
general aware-date rule follows the two cutovers. -/
theorem c5_version_boundary :
    _normalize_review_record (fun _ => 0) [("date", .vstr "2025-10-04")]
      = .error (.typeError "cannot compare offset-naive and offset-aware datetimes")
  ∧ (_normalize_review_record (fun _ => 0)
      [("date", .vstr "2025-10-04T00:00:00Z")]).map (fun r => r.version) = .ok "v3"
  ∧ (_normalize_review_record (fun _ => 0)
      [("date", .vstr "2025-10-03T23:59:59Z")]).map (fun r => r.version) = .ok "v2"
  ∧ (_normalize_review_record (fun _ => 0) []).map (fun r => r.version) = .ok "v1"
  ∧ (_normalize_review_record (fun _ => 0)
      [("date", .vstr "2025-10-04"), ("version", .vstr " V2 ")]).map
        (fun r => r.version) = .ok "v2"
  ∧ (∀ w o : Int, reviewVersionE (some ⟨w, some o⟩) "" =
      .ok (if tsOfYmd 2025 10 4 ≤ w - o then "v3"
           else if tsOfYmd 2025 5 25 ≤ w - o then "v2" else "v1")) := by
  refine ⟨rfl, rfl, rfl, rfl, rfl, ?_⟩
  intro w o
  unfold reviewVersionE
  rw [if_neg (by simp)]
  simp only [pyDtGe, v3_start, v2_start, dtTimestamp, Option.isSome_some,
    Option.getD_some, if_true]
  by_cases h3 : tsOfYmd 2025 10 4 ≤ w - o
  · simp [h3]
  · by_cases h2 : tsOfYmd 2025 5 25 ≤ w - o
    · simp [h3, h2]
    · simp [h3, h2]

/-- Re-upserting the identical point leaves the store unchanged. -/
theorem upsertPoint_idem (store : Store) (p : Nat × QdrantPayload) :
    upsertPoint (upsertPoint store p) p = upsertPoint store p := by
  by_cases h : store.any (fun q => q.1 = p.1)
  · have hmap : upsertPoint store p = store.map (fun q => if q.1 = p.1 then p else q) := by
      simp [upsertPoint, h]
    have hany : (store.map (fun q => if q.1 = p.1 then p else q)).any
        (fun q => q.1 = p.1) = true := by
      rw [List.any_map]
      rw [List.any_eq_true] at h ⊢
      obtain ⟨q, hq, hq1⟩ := h
      refine ⟨q, hq, ?_⟩
      simp only [Function.comp_apply]
      simp only [decide_eq_true_eq] at hq1
      simp [hq1]
    rw [hmap]
    simp only [upsertPoint, hany, if_true]
    rw [List.map_map]
    apply List.map_congr_left
    intro q _
    simp only [Function.comp_apply]
    by_cases hq : q.1 = p.1 <;> simp [hq]
  · have hmap : upsertPoint store p = store ++ [p] := by
      simp only [upsertPoint]
      rw [if_neg (by simpa using h)]
    have hany : (store ++ [p]).any (fun q => q.1 = p.1) = true := by
      simp [List.any_append]
    rw [hmap]
    simp only [upsertPoint, hany, if_true]
    rw [List.map_append]
    have h1 : store.map (fun q => if q.1 = p.1 then p else q) = store := by
      conv_rhs => rw [← List.map_id store]
      apply List.map_congr_left
      intro q hq
      have hne : ¬q.1 = p.1 := by
        intro hcontra
        exact h (List.any_eq_true.mpr ⟨q, hq, by simp [hcontra]⟩)
      simp [hne]
    have h2 : [p].map (fun q => if q.1 = p.1 then p else q) = [p] := by simp
    rw [h1, h2]

/-- C3 (confirmed): the derived id, and hence the numeric point id, are
deterministic functions of the raw review, so re-ingesting the same raw
review object into the store produced by its first ingestion overwrites the
same point and returns that store unchanged — `total_docs` does not
increase. -/
theorem c3_ingest_idempotent (md5bits : String → Nat) (store : Store)
    (item : List (String × PyVal)) (s₁ : Store)
    (h : ingestOne md5bits store item = .ok s₁) :
    ingestOne md5bits s₁ item = .ok s₁ ∧
      (∀ s₂, ingestOne md5bits s₁ item = .ok s₂ → totalDocs s₂ = totalDocs s₁) := by
  have hmain : ingestOne md5bits s₁ item = .ok s₁ := by
    unfold ingestOne at h ⊢
    cases hn : _normalize_review_record md5bits item with
    | error e => rw [hn] at h; cases h
    | ok r =>
        rw [hn] at h
        unfold add_embeddings at h ⊢
        simp only [List.isEmpty_cons, Bool.false_eq_true, if_false] at h ⊢
        cases hp : _point_id md5bits r.id with
        | error e => simp only [buildPoints, hp] at h; cases h
        | ok pid =>
            simp only [buildPoints, hp] at h ⊢
            injection h with h
            subst h
            simp only [List.foldl_cons, List.foldl_nil]
            rw [upsertPoint_idem]
  exact ⟨hmain, fun s₂ h₂ => by rw [hmain] at h₂; injection h₂ with h₂; rw [h₂]⟩

/-- C3 (witness): ingesting a concrete review twice from the empty store
yields the same single stored point both times. -/
theorem c3_witness :
    ingestOne (fun _ => 0) [] c3_item = .ok c3_store ∧
      ingestOne (fun _ => 0) c3_store c3_item = .ok c3_store :=
  ⟨rfl, (c3_ingest_idempotent (fun _ => 0) [] c3_item c3_store rfl).1⟩

/-- With both date bounds absent the second pass keeps every retrieved item
in order, up to the cap of 12. -/
theorem secondPass_none_none (l : List RetrievedItem) :
    ∀ k, k < 12 → secondPass none none l k = .ok ((l.take (12 - k)).map projectItem) := by
  induction l with
  | nil => intro k _; simp [secondPass]
  | cons it rest ih =>
      intro k hk
      have hin : _is_date_in_range
          (pyStrOf (pyOr (dictGetD it.metadata "date" .vnone) (.vstr "")))
          none none = .ok true := rfl
      by_cases hcap : 12 ≤ k + 1
      · have hk11 : k = 11 := by omega
        subst hk11
        simp [secondPass, hin]
      · have h1 : 12 - k = (12 - (k + 1)) + 1 := by omega
        rw [h1, List.take_succ_cons]
        simp only [secondPass, hin]
        rw [if_neg hcap, ih (k + 1) (by omega)]
        simp

/-- C10 (confirmed): when neither `start_date` nor `end_date` is supplied,
`query` keeps every retrieved result — empty or unparseable stored dates
included — and an `.ok false` verdict from `_is_date_in_range` (the only way
a result is discarded) can only arise when at least one bound is present. -/
theorem c10_no_bounds_keeps_all (args : QueryArgs) (retrieved : List RetrievedItem)
    (h1 : args.start_date = "") (h2 : args.end_date = "") :
    query args retrieved =
      .ok ⟨args.question, (retrieved.take 12).map projectItem,
           applied_of args, notes_of args⟩
  ∧ (∀ value s e, _is_date_in_range value s e = .ok false →
      ¬(s = none ∧ e = none)) := by
  constructor
  · unfold query
    rw [h1, h2]
    have hsp := secondPass_none_none retrieved 0 (by omega)
    simp only [Nat.sub_zero] at hsp
    simp [_parse_date, hsp]
  · intro value s e h
    rintro ⟨rfl, rfl⟩
    simp [_is_date_in_range] at h

/-- C10 (witness): a result whose stored date does not parse is retained
when no bounds were requested. -/
theorem c10_witness :
    query { question := "q" } [⟨"r1", "t", [("date", .vstr "not-a-date")]⟩] =
      .ok ⟨"q", (([⟨"r1", "t", [("date", .vstr "not-a-date")]⟩] :
            List RetrievedItem).take 12).map projectItem,
          applied_of { question := "q" }, notes_of { question := "q" }⟩ :=
  (c10_no_bounds_keeps_all { question := "q" }
    [⟨"r1", "t", [("date", .vstr "not-a-date")]⟩] rfl rfl).1

/-- C2 (counterexample): `mobile_model = "iPhone 14"` with no explicit
device yields `applied_filters` without any `device` key (so not `"iOS"`),
and the note names `"Android"` — the model string is never inspected for
Apple hardware. -/
theorem c2_counterexample :
    (query c2_args []).map (fun o => (o.applied.device, o.notes)) =
      .ok (none, [mobile_model_note "Android"]) ∧
    (query c2_args []).map (fun o => o.applied.device) ≠ .ok (some "iOS") := by
  refine ⟨rfl, ?_⟩
  rw [show (query c2_args []).map (fun o => o.applied.device) =
    .ok none from rfl]
  simp

theorem build_filter_no_device (rv : Option (List Int)) (c v : String)
    (s e : Option Int) (f : Filter) (hf : build_filter "" rv c v s e = some f) :
    hasDeviceClause f = false := by
  simp only [build_filter] at hf
  rw [show normFilterStr "" = "" from rfl] at hf
  split_ifs at hf <;>
    first
      | (injection hf with hf; subst hf;
         simp [hasDeviceClause, List.any_append]; done)
      | simp_all

/-- C2 (amended): when `mobile_model` is non-empty and `device` is empty, the
note says the unsupported `mobile_model` was ignored and the `"Android"`
device filter used instead (the model string is never inspected, so
`"iPhone 14"` does not infer iOS), `applied_filters` carries no `device`
entry at all, and the filter actually sent to the index has no device
clause. -/
theorem c2_mobile_model_proxy (args : QueryArgs) (retrieved : List RetrievedItem)
    (out : QueryOutput) (hm : args.mobile_model ≠ "") (hd : args.device = "")
    (h : query args retrieved = .ok out) :
    out.notes = [mobile_model_note "Android"] ∧ out.applied.device = none ∧
      ∀ f, query_built_filter args = some f → hasDeviceClause f = false := by
  have hout : out.applied = applied_of args ∧ out.notes = notes_of args := by
    unfold query at h
    cases hsp : secondPass (_parse_date args.start_date)
        (_parse_date args.end_date) retrieved 0 with
    | error e => rw [hsp] at h; cases h
    | ok docs => rw [hsp] at h; injection h with h; subst h; exact ⟨rfl, rfl⟩
  obtain ⟨ha, hn⟩ := hout
  have hnd : normalized_device_of args.device = "" := by
    rw [hd]; rfl
  refine ⟨?_, ?_, ?_⟩
  · rw [hn]
    unfold notes_of effective_device_of
    rw [if_pos hm, hnd]
    simp
  · rw [ha]
    unfold applied_of
    simp [hnd]
  · intro f hf
    unfold query_built_filter at hf
    rw [hnd] at hf
    exact build_filter_no_device _ _ _ _ _ f hf

/-- C2 (witness): the amended behavior at the concrete query of the claim. -/
theorem c2_witness :
    c2_out.notes = [mobile_model_note "Android"] ∧ c2_out.applied.device = none :=
  ⟨(c2_mobile_model_proxy c2_args [] c2_out (by simp [c2_args]) rfl rfl).1,
   (c2_mobile_model_proxy c2_args [] c2_out (by simp [c2_args]) rfl rfl).2.1⟩

/-- C9 (counterexample): `end_date = "January 1, 2025"` parses (offset-aware,
via `strptime`), but a retrieved review stored with that very calendar day
(`"2025-01-01"`, which re-parses offset-naive) makes the second-pass
comparison raise `TypeError`, so the query fails instead of including the
review — the overall date filtering is not inclusive for every parseable
`end_date`. -/
theorem c9_counterexample :
    (_parse_date "January 1, 2025").isSome = true ∧
    query { question := "q", end_date := "January 1, 2025" }
        [⟨"r1", "t", [("date", .vstr "2025-01-01")]⟩] =
      .error (.typeError "cannot compare offset-naive and offset-aware datetimes") :=
  ⟨rfl, rfl⟩

/-- C9 (amended): whenever `end_date` parses, the end timestamp handed to the
index filter is the parsed timestamp plus 86399 seconds, and the range clause
on `date_ts` built from it accepts any stored timestamp up to the end of that
calendar day; the second pass keeps a stored date string of the same (or any
earlier) instant provided it parses with the same offset-awareness as
`end_date` — with mixed awareness (e.g. a month-name `end_date` against the
pipeline's stored `YYYY-MM-DD` strings) the comparison raises instead, so
the claimed inclusivity holds for ISO-form end dates rather than for every
parseable one. -/
theorem c9_end_date_inclusive (end_date : String) (dt : PyDateTime)
    (h : _parse_date end_date = some dt) :
    query_end_ts end_date = some (dtTimestamp dt + 86399)
  ∧ (∀ (p : List (String × PyVal)) (t : Int) (s : Option Int),
      dictLookup p "date_ts" = some (.vint t) →
      (∀ sv, s = some sv → sv ≤ t) → t ≤ dtTimestamp dt + 86399 →
      evalCondition p (.range "date_ts" s (some (dtTimestamp dt + 86399))) = true)
  ∧ (∀ value dv, _parse_date value = some dv →
      dv.offset.isSome = dt.offset.isSome → dtTimestamp dv ≤ dtTimestamp dt →
      _is_date_in_range value none (some dt) = .ok true) := by
  refine ⟨?_, ?_, ?_⟩
  · unfold query_end_ts
    rw [h]
    rfl
  · intro p t s hp hs ht
    simp only [evalCondition, hp]
    cases s with
    | none => simp [ht]
    | some sv => simp [ht, hs sv rfl]
  · intro value dv hv hoff hle
    unfold _is_date_in_range
    rw [hv]
    simp only [Option.isNone_none, Option.isNone_some, Bool.and_false,
      Bool.false_eq_true, if_false]
    have hlt : (dtTimestamp dt < dtTimestamp dv) = False := by
      simp only [eq_iff_iff, iff_false, not_lt]
      exact hle
    simp [rangeEndCheck, pyDtLt, hoff.symm, hlt]

/-- C9 (witness): `end_date = "2025-01-01"` (midnight 1735689600) produces
`end_ts = 1735775999`, and a review stored with the same day string passes
the second-pass filter. -/
theorem c9_witness :
    query_end_ts "2025-01-01" = some 1735775999
  ∧ evalCondition [("date_ts", .vint 1735775000)]
      (.range "date_ts" none (some 1735775999)) = true
  ∧ _is_date_in_range "2025-01-01" none (some ⟨1735689600, none⟩) = .ok true := by
  have hmain := c9_end_date_inclusive "2025-01-01" ⟨1735689600, none⟩ rfl
  refine ⟨hmain.1, ?_, ?_⟩
  · exact hmain.2.1 [("date_ts", .vint 1735775000)] 1735775000 none rfl
      (fun sv hsv => by cases hsv) (by decide)
  · exact hmain.2.2 "2025-01-01" ⟨1735689600, none⟩ rfl rfl (by decide)

end LiquideSpec
